import Mathlib

/-!
Verification of the nytf feature-engineering repository.

The Lean definitions below are shallow embeddings of the Python functions in
`src/python/nytf/`: real-valued arithmetic is modelled over `ℝ` (exact reals),
the dataframe-free arithmetic cores over `ℚ`, strings over `String`, and a
Python call that can raise is modelled as an `Except PyErr` value.
-/

namespace NYTF

/-- Errors a call can surface.  `nameError` models Python's
`NameError`/`UnboundLocalError` (use of the unbound `conv_k` after the unit
check falls through), `valueError` models `raise ValueError`, and
`configurationError` models the `ConfigurationError` kind named by the spec
(no such type exists in the code; it is included so that claims naming it are
statable). -/
inductive PyErr where
  | nameError : PyErr
  | valueError : PyErr
  | configurationError : PyErr
deriving DecidableEq

deriving instance DecidableEq for Except

/-- Result of the angle-unit string test at the top of `flying_distance_AB`
and `L1_distance_AB` in `nytf_geo.py`. -/
inductive AngUnit where
  | rad : AngUnit
  | deg : AngUnit
  | unknown : AngUnit
deriving DecidableEq

/-- Per-character lower-casing, modelling Python's `str.lower()` on the ASCII
unit strings the code compares against. -/
def strLower (s : String) : String := ⟨s.data.map Char.toLower⟩

/-- `ang_unit.lower() in ('rad', 'radian')` / `('deg', 'degree', '°')`
(nytf_geo.py lines 45-51 and 93-99). -/
def parseAngUnit (s : String) : AngUnit :=
  let l := strLower s
  if l = "rad" ∨ l = "radian" then AngUnit.rad
  else if l = "deg" ∨ l = "degree" ∨ l = "°" then AngUnit.deg
  else AngUnit.unknown

/-- The conversion factor `conv_k` bound by the recognized branches
(`1` for radians, `pi/180` for degrees).  The `unknown` case is never used by
the embeddings below: they return `PyErr.nameError` instead, mirroring the
`UnboundLocalError` raised at the first use of `conv_k` in Python. -/
noncomputable def convK : AngUnit → ℝ
  | AngUnit.rad => 1
  | AngUnit.deg => Real.pi / 180
  | AngUnit.unknown => 0

/-- `min(max(-1.0, x), 1.0)` (nytf_geo.py lines 59-60 and 120). -/
def clamp1 (x : ℝ) : ℝ := min (max (-1) x) 1

/-- The spherical-law-of-cosines expression
`cos(latA*k)*cos(latB*k)*cos(fabs(lonA-lonB)*k) + sin(latA*k)*sin(latB*k)`
appearing in `flying_distance_AB` (lines 59-60) and, unclamped, in the
equal-latitude branch of `L1_distance_AB` (lines 105-106).  It is parametrised
by the cosine and sine implementations `fcos`, `fsin` so that properties about
clamping can be stated for every (e.g. rounded floating-point) implementation;
the distance functions below instantiate `fcos := Real.cos`,
`fsin := Real.sin`. -/
def sphericalCosArg (fcos fsin : ℝ → ℝ) (k latA lonA latB lonB : ℝ) : ℝ :=
  fcos (latA * k) * fcos (latB * k) * fcos (|lonA - lonB| * k) +
    fsin (latA * k) * fsin (latB * k)

/-- `cos_lat_squared_avg` (nytf_geo.py lines 110-114). -/
noncomputable def cosLatSqAvg (fsin : ℝ → ℝ) (k latA latB : ℝ) : ℝ :=
  (fsin (2 * latB * k) / 4 + latB * k / 2 - fsin (2 * latA * k) / 4 - latA * k / 2) /
    ((latB - latA) * k)

/-- `sin_lat_squared_avg` (nytf_geo.py lines 115-119). -/
noncomputable def sinLatSqAvg (fsin : ℝ → ℝ) (k latA latB : ℝ) : ℝ :=
  (-(fsin (2 * latB * k)) / 4 + latB * k / 2 + fsin (2 * latA * k) / 4 - latA * k / 2) /
    ((latB - latA) * k)

/-- The acos argument of the general (unequal-latitude) branch of
`L1_distance_AB`:
`cos_lat_squared_avg*cos(lonA*k - lonB*k) + sin_lat_squared_avg`
(nytf_geo.py line 120, before the clamp). -/
noncomputable def l1GenCosArg (fcos fsin : ℝ → ℝ) (k latA lonA latB lonB : ℝ) : ℝ :=
  cosLatSqAvg fsin k latA latB * fcos (lonA * k - lonB * k) + sinLatSqAvg fsin k latA latB

/-- `flying_distance_AB` (nytf_geo.py lines 30-62).  The unit check only binds
`conv_k`; the identical-point special case (lines 53-54) returns `0` before
`conv_k` is ever used, so an unknown unit only surfaces (as an unbound-name
error) on the general-formula path. -/
noncomputable def flying_distance_AB (latA lonA latB lonB : ℝ) (angUnit : String) (r : ℝ) :
    Except PyErr ℝ :=
  if latA = latB ∧ lonA = lonB then Except.ok 0
  else
    match parseAngUnit angUnit with
    | AngUnit.unknown => Except.error PyErr.nameError
    | u =>
      Except.ok
        (r * Real.arccos (clamp1 (sphericalCosArg Real.cos Real.sin (convK u) latA lonA latB lonB)))

/-- `fabs(X_prime[0,0]) + fabs(X_prime[0,1])` for
`X_prime = P_inv.dot([x0, x1])` with `P_inv = [[a, b], [-b, a]]`,
`a = cos(plane_rot_angle)`, `b = sin(plane_rot_angle)`
(nytf_geo.py lines 127-134). -/
noncomputable def rotSumAbs (rot x0 x1 : ℝ) : ℝ :=
  |Real.cos rot * x0 + Real.sin rot * x1| + |(-Real.sin rot) * x0 + Real.cos rot * x1|

/-- `L1_distance_AB` (nytf_geo.py lines 87-134).  Branch structure follows the
source: equal latitudes and equal longitudes give `X = [0, 0]` (no use of
`conv_k`, hence no error even for an unknown unit); equal latitudes with
distinct longitudes use the unclamped spherical expression; the general branch
uses the clamped averaged expression and the absolute latitude difference. -/
noncomputable def L1_distance_AB (latA lonA latB lonB : ℝ) (angUnit : String) (r rot : ℝ) :
    Except PyErr ℝ :=
  if latA = latB then
    if lonA = lonB then Except.ok (rotSumAbs rot 0 0)
    else
      match parseAngUnit angUnit with
      | AngUnit.unknown => Except.error PyErr.nameError
      | u =>
        Except.ok
          (rotSumAbs rot
            (r * Real.arccos (sphericalCosArg Real.cos Real.sin (convK u) latA lonA latB lonB)) 0)
  else
    match parseAngUnit angUnit with
    | AngUnit.unknown => Except.error PyErr.nameError
    | u =>
      Except.ok
        (rotSumAbs rot
          (r * Real.arccos (clamp1 (l1GenCosArg Real.cos Real.sin (convK u) latA lonA latB lonB)))
          (r * |latA * convK u - latB * convK u|))

/-- One output point of `SegmentToCircle.transform` (utils.py lines 153-168):
for a value `v` of a column, the emitted `(cos, sin)` pair.  The code computes
`cos((col - segment_min) / ((segment_max - segment_min) * 2 * pi))` (and the
same for `sin`), i.e. it divides by `2π` instead of multiplying. -/
noncomputable def SegmentToCircle_point (smin smax v : ℝ) : ℝ × ℝ :=
  (Real.cos ((v - smin) / ((smax - smin) * 2 * Real.pi)),
   Real.sin ((v - smin) / ((smax - smin) * 2 * Real.pi)))

/-- Modelled from the spec: the `(cos θ, sin θ)` pair with
`θ = 2π·(value − min)/(max − min)` (spec §3 CyclicFeature and §4.5), for
comparison with the code's `SegmentToCircle_point`. -/
noncomputable def SegmentToCircle_point_specFormula (smin smax v : ℝ) : ℝ × ℝ :=
  (Real.cos (2 * Real.pi * (v - smin) / (smax - smin)),
   Real.sin (2 * Real.pi * (v - smin) / (smax - smin)))

/-- `night_hour = (hour_col > 20) | (hour_col < 6)`
(business_time_features.py line 21). -/
def night_hour (h : ℚ) : Bool := decide (20 < h) || decide (h < 6)

/-- `peak_hour = (hour_col > 16) & (hour_col < 20)`
(business_time_features.py line 22). -/
def peak_hour (h : ℚ) : Bool := decide (16 < h) && decide (h < 20)

/-- The `(night_hour, peak_hour)` pair `BusinessFeatures.transform` emits for
one hour value, after the cast of the booleans to `int8` 0/1
(business_time_features.py line 24). -/
def BusinessFeatures_transform (h : ℚ) : ℕ × ℕ :=
  (if night_hour h then 1 else 0, if peak_hour h then 1 else 0)

/-- `BasicTemporalFeatures.implemented_features()` (utils.py lines 104-108). -/
def implementedFeatures : List String :=
  ["timestamp", "minute", "hour", "day", "month", "year", "dayofweek", "dayofyear",
   "days_in_month", "is_leap_year", "day_progress", "week_progress", "month_progress",
   "year_progress"]

/-- The attribute names `_attribute_to_extract` is intersected with
(utils.py lines 97-98). -/
def extractableAttributes : List String :=
  ["minute", "hour", "day", "month", "year", "dayofweek", "dayofyear", "days_in_month",
   "is_leap_year"]

/-- One `if feature in to_compute: to_compute.update((...))` step of
`BasicTemporalFeatures.__init__`. -/
def expandStep (s : Finset String) (trigger : String) (adds : Finset String) : Finset String :=
  if trigger ∈ s then s ∪ adds else s

/-- The `to_compute` set after the four prerequisite-expansion steps of
`BasicTemporalFeatures.__init__` (utils.py lines 84-93), performed in source
order: year, month, week, then day progress. -/
def toCompute (names : List String) : Finset String :=
  let s1 := expandStep names.toFinset "year_progress" {"day_progress", "dayofyear", "is_leap_year"}
  let s2 := expandStep s1 "month_progress" {"day_progress", "day", "days_in_month"}
  let s3 := expandStep s2 "week_progress" {"day_progress", "dayofweek"}
  expandStep s3 "day_progress" {"hour", "minute"}

/-- The configuration state `BasicTemporalFeatures.__init__` leaves behind:
the `_compute_*` flags and `_attribute_to_extract` (utils.py lines 95-98). -/
structure BTFConfig where
  computeTimestamp : Bool
  computeDayProgress : Bool
  computeWeekProgress : Bool
  computeMonthProgress : Bool
  computeYearProgress : Bool
  attributeToExtract : Finset String
deriving DecidableEq

/-- The configuration produced for a given `to_compute` set: the
`setattr(self, '_compute_' + feature, feature in to_compute)` loop and the
intersection defining `_attribute_to_extract` (utils.py lines 95-98). -/
def initConfig (tc : Finset String) : BTFConfig :=
  { computeTimestamp := decide ("timestamp" ∈ tc)
    computeDayProgress := decide ("day_progress" ∈ tc)
    computeWeekProgress := decide ("week_progress" ∈ tc)
    computeMonthProgress := decide ("month_progress" ∈ tc)
    computeYearProgress := decide ("year_progress" ∈ tc)
    attributeToExtract := tc ∩ extractableAttributes.toFinset }

/-- `BasicTemporalFeatures.__init__` (utils.py lines 81-102): a falsy (empty)
`feature_names` defaults to the implemented features; prerequisites are
expanded; construction raises `ValueError` when `to_compute` is not a subset
of the implemented features. -/
def BasicTemporalFeatures_init (featureNames : List String) : Except PyErr BTFConfig :=
  let names := if featureNames = [] then implementedFeatures else featureNames
  let tc := toCompute names
  if tc ⊆ implementedFeatures.toFinset then Except.ok (initConfig tc)
  else Except.error PyErr.valueError

/-- One row of the `days_ref` table built by
`HolidayFeaturesExtractor._get_days_ref` (holidays_extractor.py lines 39-81):
the `(prev_holiday_date, prev_holiday)` and `(next_holiday_date, next_holiday)`
pairs, `none` standing for the initial NaT/NaN.  Dates are day indices into the
span. -/
structure DayRow where
  prev : Option (Nat × String)
  next : Option (Nat × String)
deriving DecidableEq

/-- `days_ref.loc[idx, ["prev_holiday_date", "prev_holiday"]] = v` on a table
modelled as a function from day index to row. -/
def setPrevAt (rows : Nat → DayRow) (idx : Nat) (v : Option (Nat × String)) : Nat → DayRow :=
  fun i => if i = idx then { rows i with prev := v } else rows i

/-- `days_ref.loc[lo:hi, ["next_holiday_date", "next_holiday"]] = v`
(label-based, inclusive of both ends). -/
def setNextRange (rows : Nat → DayRow) (lo hi : Nat) (v : Option (Nat × String)) :
    Nat → DayRow :=
  fun i => if lo ≤ i ∧ i ≤ hi then { rows i with next := v } else rows i

/-- Loop state of the forward scan in `_get_days_ref`:
the rows so far, `past_holiday`/`past_holiday_date` (paired), and
`no_holiday_last_index`. -/
structure ScanState where
  rows : Nat → DayRow
  past : Option (Nat × String)
  lastIdx : Nat

/-- One iteration of the `for idx, row in days_ref.iterrows()` loop
(holidays_extractor.py lines 53-75).  `hols` gives the holiday label of each
day of the span, `none` meaning `'normal'`. -/
def daysRefStep (hols : List (Option String)) (st : ScanState) (idx : Nat) : ScanState :=
  match hols.getD idx none with
  | none =>
    match st.past with
    | none => st
    | some p => { st with rows := setPrevAt st.rows idx (some p) }
  | some h =>
    let past' := match st.past with
      | none => some (idx, h)
      | some p => some p
    let rows1 := setPrevAt st.rows idx past'
    let rows2 := setNextRange rows1 st.lastIdx idx (some (idx, h))
    { rows := rows2, past := some (idx, h), lastIdx := idx }

/-- `HolidayFeaturesExtractor._get_days_ref` (holidays_extractor.py lines
39-81): initial all-`none` rows, the forward scan, then the trailing
`days_ref.loc[no_holiday_last_index:, ...] = (past_holiday_date, past_holiday)`
fill over the rest of the span. -/
def get_days_ref (hols : List (Option String)) : Nat → DayRow :=
  let n := hols.length
  let final := (List.range n).foldl (daysRefStep hols) ⟨fun _ => ⟨none, none⟩, none, 0⟩
  fun i =>
    if final.lastIdx ≤ i ∧ i < n then { final.rows i with next := final.past } else final.rows i

/-- The interest values of the rows carrying holiday label `lab`
(the groups of `df_to_group.groupby("holiday")`,
holidays_extractor.py lines 94-98). -/
def groupVals (rows : List (String × ℚ)) (lab : String) : List ℚ :=
  (rows.filter (fun r => r.1 = lab)).map (fun r => r.2)

/-- The per-label mean of `groupby("holiday").mean()`
(holidays_extractor.py line 98). -/
def groupMean (rows : List (String × ℚ)) (lab : String) : ℚ :=
  (groupVals rows lab).sum / (groupVals rows lab).length

/-- The holiday score of a label after the normalisation
`self._holiday_scores / self._holiday_scores.loc["normal"]`
(holidays_extractor.py line 99). -/
def holidayScore (rows : List (String × ℚ)) (lab : String) : ℚ :=
  groupMean rows lab / groupMean rows "normal"

/-- The `holiday_score` column `_transform` merges onto the data: each row
receives the score of its own holiday label
(holidays_extractor.py lines 110-113). -/
def ownLabelScores (rows : List (String × ℚ)) : List ℚ :=
  rows.map (fun r => holidayScore rows r.1)

/-! ### Helper lemmas -/

theorem rotSumAbs_zero (rot : ℝ) : rotSumAbs rot 0 0 = 0 := by
  simp [rotSumAbs]

theorem sphericalCosArg_symm (fc fs : ℝ → ℝ) (k latA lonA latB lonB : ℝ) :
    sphericalCosArg fc fs k latA lonA latB lonB = sphericalCosArg fc fs k latB lonB latA lonA := by
  unfold sphericalCosArg
  rw [abs_sub_comm]
  ring

theorem clamp1_mem_Icc (x : ℝ) : clamp1 x ∈ Set.Icc (-1 : ℝ) 1 := by
  constructor
  · exact le_min (le_max_left _ _) (by norm_num)
  · exact min_le_right _ _

theorem clamp1_eq_self {x : ℝ} (h1 : -1 ≤ x) (h2 : x ≤ 1) : clamp1 x = x := by
  unfold clamp1
  rw [max_eq_right h1, min_eq_left h2]

/-! ### Claims -/

/-- C1: for every point `(lat, lon)`, every recognized angle unit and every
radius `r`, `flying_distance_AB` applied to two identical coordinate pairs
returns exactly `0`, through the special case for identical coordinates
(nytf_geo.py lines 53-54), not through the spherical-law-of-cosines branch. -/
theorem C1_flying_distance_self_eq_zero (lat lon r : ℝ) (u : String)
    (hu : parseAngUnit u ≠ AngUnit.unknown) :
    flying_distance_AB lat lon lat lon u r = Except.ok 0 := by
  simp [flying_distance_AB]

/-- Witness for C1 at `lat = 3`, `lon = 4`, unit `"rad"`, `r = 5`. -/
theorem C1_witness :
    parseAngUnit "rad" ≠ AngUnit.unknown ∧
    flying_distance_AB 3 4 3 4 "rad" 5 = Except.ok 0 :=
  ⟨by decide, C1_flying_distance_self_eq_zero 3 4 5 "rad" (by decide)⟩

/-- C5 counterexample: with the unrecognized unit string `"furlong"` and
identical points, both `flying_distance_AB` and `L1_distance_AB` return
`Except.ok 0` — no error at all, in particular not a `ConfigurationError`. -/
theorem C5_counterexample :
    flying_distance_AB 1 1 1 1 "furlong" 1 = Except.ok 0 ∧
    flying_distance_AB 1 1 1 1 "furlong" 1 ≠ Except.error PyErr.configurationError ∧
    L1_distance_AB 1 1 1 1 "furlong" 1 0 = Except.ok 0 ∧
    L1_distance_AB 1 1 1 1 "furlong" 1 0 ≠ Except.error PyErr.configurationError := by
  have h1 : flying_distance_AB 1 1 1 1 "furlong" 1 = Except.ok 0 := by
    simp [flying_distance_AB]
  have h2 : L1_distance_AB 1 1 1 1 "furlong" 1 0 = Except.ok 0 := by
    simp [L1_distance_AB, rotSumAbs_zero]
  exact ⟨h1, by simp [h1], h2, by simp [h2]⟩

/-- C5 (amended): an unrecognized angle-unit string is never reported as a
`ConfigurationError`.  The code prints a message and falls through with
`conv_k` unbound: `flying_distance_AB` still returns `0` for identical points
and otherwise raises `NameError` at the first use of `conv_k`;
`L1_distance_AB` returns `0` for identical points and otherwise raises
`NameError`. -/
theorem C5_unknown_unit_prints_and_falls_through (latA lonA latB lonB r rot : ℝ) (u : String)
    (hu : parseAngUnit u = AngUnit.unknown) :
    flying_distance_AB latA lonA latB lonB u r =
      (if latA = latB ∧ lonA = lonB then Except.ok 0 else Except.error PyErr.nameError) ∧
    L1_distance_AB latA lonA latB lonB u r rot =
      (if latA = latB then
        (if lonA = lonB then Except.ok 0 else Except.error PyErr.nameError)
       else Except.error PyErr.nameError) := by
  constructor
  · by_cases h : latA = latB ∧ lonA = lonB <;> simp [flying_distance_AB, h, hu]
  · by_cases h1 : latA = latB <;> by_cases h2 : lonA = lonB <;>
      simp [L1_distance_AB, h1, h2, hu, rotSumAbs_zero]

/-- Witness for the amended C5 at the unit string `"furlong"`. -/
theorem C5_witness :
    parseAngUnit "furlong" = AngUnit.unknown ∧
    (flying_distance_AB 1 2 3 4 "furlong" 5 =
      (if (1 : ℝ) = 3 ∧ (2 : ℝ) = 4 then Except.ok 0 else Except.error PyErr.nameError) ∧
    L1_distance_AB 1 2 3 4 "furlong" 5 6 =
      (if (1 : ℝ) = 3 then
        (if (2 : ℝ) = 4 then Except.ok 0 else Except.error PyErr.nameError)
       else Except.error PyErr.nameError)) :=
  ⟨by decide, C5_unknown_unit_prints_and_falls_through 1 2 3 4 5 6 "furlong" (by decide)⟩

/-- C9: for every two points, recognized angle unit and radius `r ≥ 0`,
`flying_distance_AB` is symmetric in its two points, succeeds, and its value
is non-negative and at most `π·r`. -/
theorem C9_flying_symmetric_nonneg_bounded (latA lonA latB lonB r : ℝ) (u : String)
    (hu : parseAngUnit u ≠ AngUnit.unknown) (hr : 0 ≤ r) :
    flying_distance_AB latA lonA latB lonB u r = flying_distance_AB latB lonB latA lonA u r ∧
    ∃ v, flying_distance_AB latA lonA latB lonB u r = Except.ok v ∧
      0 ≤ v ∧ v ≤ Real.pi * r := by
  constructor
  · unfold flying_distance_AB
    by_cases h : latA = latB ∧ lonA = lonB
    · have h' : latB = latA ∧ lonB = lonA := ⟨h.1.symm, h.2.symm⟩
      rw [if_pos h, if_pos h']
    · have h' : ¬(latB = latA ∧ lonB = lonA) := fun hh => h ⟨hh.1.symm, hh.2.symm⟩
      rw [if_neg h, if_neg h']
      cases hp : parseAngUnit u with
      | unknown => simp only [hp]
      | rad =>
        simp only [hp]
        rw [sphericalCosArg_symm]
      | deg =>
        simp only [hp]
        rw [sphericalCosArg_symm]
  · by_cases h : latA = latB ∧ lonA = lonB
    · exact ⟨0, by simp [flying_distance_AB, h], le_refl 0,
        mul_nonneg Real.pi_pos.le hr⟩
    · have hval : ∀ x : ℝ, 0 ≤ r * Real.arccos x ∧ r * Real.arccos x ≤ Real.pi * r :=
        fun x => ⟨mul_nonneg hr (Real.arccos_nonneg x),
          by rw [mul_comm]; exact mul_le_mul_of_nonneg_right (Real.arccos_le_pi x) hr⟩
      cases hp : parseAngUnit u with
      | unknown => exact absurd hp hu
      | rad =>
        refine ⟨r * Real.arccos (clamp1
          (sphericalCosArg Real.cos Real.sin (convK AngUnit.rad) latA lonA latB lonB)), ?_, hval _⟩
        simp only [flying_distance_AB, if_neg h, hp]
      | deg =>
        refine ⟨r * Real.arccos (clamp1
          (sphericalCosArg Real.cos Real.sin (convK AngUnit.deg) latA lonA latB lonB)), ?_, hval _⟩
        simp only [flying_distance_AB, if_neg h, hp]

/-- Witness for C9 at `A = (1, 2)`, `B = (3, 4)`, unit `"deg"`, `r = 5`. -/
theorem C9_witness :
    parseAngUnit "deg" ≠ AngUnit.unknown ∧ (0 : ℝ) ≤ 5 ∧
    (flying_distance_AB 1 2 3 4 "deg" 5 = flying_distance_AB 3 4 1 2 "deg" 5 ∧
    ∃ v, flying_distance_AB 1 2 3 4 "deg" 5 = Except.ok v ∧ 0 ≤ v ∧ v ≤ Real.pi * 5) :=
  ⟨by decide, by norm_num,
    C9_flying_symmetric_nonneg_bounded 1 2 3 4 5 "deg" (by decide) (by norm_num)⟩

/-- C10: `BusinessFeatures.transform` sets `night_hour` to 1 exactly when the
hour is above 20 or below 6, `peak_hour` to 1 exactly when the hour is
strictly between 16 and 20, and classifies the boundary hours 6, 16 and 20 as
neither. -/
theorem C10_business_hours_classification (h : ℚ) :
    ((BusinessFeatures_transform h).1 = 1 ↔ (20 < h ∨ h < 6)) ∧
    ((BusinessFeatures_transform h).2 = 1 ↔ (16 < h ∧ h < 20)) ∧
    BusinessFeatures_transform 6 = (0, 0) ∧
    BusinessFeatures_transform 16 = (0, 0) ∧
    BusinessFeatures_transform 20 = (0, 0) := by
  refine ⟨?_, ?_, ?_, ?_, ?_⟩
  · by_cases h1 : 20 < h <;> by_cases h2 : h < 6 <;>
      simp [BusinessFeatures_transform, night_hour, h1, h2]
  · by_cases h1 : 16 < h <;> by_cases h2 : h < 20 <;>
      simp [BusinessFeatures_transform, peak_hour, h1, h2]
  · norm_num [BusinessFeatures_transform, night_hour, peak_hour]
  · norm_num [BusinessFeatures_transform, night_hour, peak_hour]
  · norm_num [BusinessFeatures_transform, night_hour, peak_hour]

/-- C2: the claimed encoder formula `θ = 2π·(v − min)/(max − min)` does give
the same point at `v = min` and `v = max` (the spec-formula definition), but
the code divides by `2π` instead of multiplying, so `SegmentToCircle.transform`
maps the segment ends `0` and `1` of the segment `[0, 1]` to different points:
the code's angle at `v = 1` is `1/(2π)`, whose cosine is strictly below 1. -/
theorem C2_segment_to_circle_ends_differ :
    SegmentToCircle_point 0 1 1 ≠ SegmentToCircle_point 0 1 0 ∧
    SegmentToCircle_point_specFormula 0 1 1 = SegmentToCircle_point_specFormula 0 1 0 := by
  constructor
  · unfold SegmentToCircle_point
    intro hcontra
    have hfst := congrArg Prod.fst hcontra
    simp only [Prod.fst] at hfst
    have e1 : ((1 : ℝ) - 0) / (((1 : ℝ) - 0) * 2 * Real.pi) = 1 / (2 * Real.pi) := by
      norm_num
    have e0 : ((0 : ℝ) - 0) / (((1 : ℝ) - 0) * 2 * Real.pi) = 0 := by
      norm_num
    rw [e1, e0, Real.cos_zero] at hfst
    have hlt : Real.cos (1 / (2 * Real.pi)) < 1 := by
      have hle : 1 / (2 * Real.pi) ≤ Real.pi := by
        rw [div_le_iff₀ (by positivity)]
        nlinarith [Real.pi_gt_three]
      calc Real.cos (1 / (2 * Real.pi)) < Real.cos 0 :=
            Real.cos_lt_cos_of_nonneg_of_le_pi (le_refl 0) hle (by positivity)
        _ = 1 := Real.cos_zero
    exact absurd hfst hlt.ne
  · unfold SegmentToCircle_point_specFormula
    have h1 : 2 * Real.pi * ((1 : ℝ) - 0) / (1 - 0) = 2 * Real.pi := by norm_num
    have h0 : 2 * Real.pi * ((0 : ℝ) - 0) / (1 - 0) = 0 := by norm_num
    rw [h1, h0, Real.cos_two_pi, Real.sin_two_pi, Real.cos_zero, Real.sin_zero]

/-! ### C7: clamping of acos arguments -/

/-- C7 counterexample: it is not true that, for every bounded cosine/sine
implementation (modelling floating-point rounding of `cos`/`sin`), the
argument handed to `acos` in the equal-latitude branch of `L1_distance_AB`
(nytf_geo.py lines 105-106, where `sphericalCosArg` is passed to `acos`
without `min(max(-1.0, ·), 1.0)`) lies in `[-1, 1]`: the implementations
constantly equal to `1` put it at `2`. -/
theorem C7_l1_equal_latitude_arg_not_clamped :
    ¬ (∀ fcos fsin : ℝ → ℝ, (∀ x, |fcos x| ≤ 1) → (∀ x, |fsin x| ≤ 1) →
        ∀ k latA lonA latB lonB : ℝ,
          sphericalCosArg fcos fsin k latA lonA latB lonB ∈ Set.Icc (-1 : ℝ) 1) := by
  intro hall
  have h := hall (fun _ => 1) (fun _ => 1) (fun x => by norm_num) (fun x => by norm_num) 1 0 0 0 0
  rw [Set.mem_Icc] at h
  norm_num [sphericalCosArg] at h

/-- C7 (amended): the `acos` arguments of `flying_distance_AB` and of the
general branch of `L1_distance_AB` are clamped to `[-1, 1]` before `acos`
(and hence lie in `[-1, 1]` for every cosine/sine implementation), while the
equal-latitude branch of `L1_distance_AB` passes `sphericalCosArg` to `acos`
unclamped; with exact `Real.cos`/`Real.sin` that argument still lies in
`[-1, 1]` whenever the branch is taken (equal latitudes). -/
theorem C7_acos_arguments_in_range (fcos fsin : ℝ → ℝ) (k latA lonA latB lonB : ℝ)
    (heq : latA = latB) :
    clamp1 (sphericalCosArg fcos fsin k latA lonA latB lonB) ∈ Set.Icc (-1 : ℝ) 1 ∧
    clamp1 (l1GenCosArg fcos fsin k latA lonA latB lonB) ∈ Set.Icc (-1 : ℝ) 1 ∧
    sphericalCosArg Real.cos Real.sin k latA lonA latB lonB ∈ Set.Icc (-1 : ℝ) 1 := by
  refine ⟨clamp1_mem_Icc _, clamp1_mem_Icc _, ?_⟩
  subst heq
  rw [Set.mem_Icc]
  unfold sphericalCosArg
  constructor
  · nlinarith [Real.neg_one_le_cos (|lonA - lonB| * k), Real.cos_le_one (|lonA - lonB| * k),
      Real.sin_sq_add_cos_sq (latA * k), sq_nonneg (Real.cos (latA * k)),
      sq_nonneg (Real.sin (latA * k))]
  · nlinarith [Real.neg_one_le_cos (|lonA - lonB| * k), Real.cos_le_one (|lonA - lonB| * k),
      Real.sin_sq_add_cos_sq (latA * k), sq_nonneg (Real.cos (latA * k)),
      sq_nonneg (Real.sin (latA * k))]

/-- Witness for the amended C7 at latitude 1 (both points), longitudes 0 and
2, `k = 1`, with the exact trigonometric functions. -/
theorem C7_witness :
    (1 : ℝ) = 1 ∧
    (clamp1 (sphericalCosArg Real.cos Real.sin 1 1 0 1 2) ∈ Set.Icc (-1 : ℝ) 1 ∧
    clamp1 (l1GenCosArg Real.cos Real.sin 1 1 0 1 2) ∈ Set.Icc (-1 : ℝ) 1 ∧
    sphericalCosArg Real.cos Real.sin 1 1 0 1 2 ∈ Set.Icc (-1 : ℝ) 1) :=
  ⟨rfl, C7_acos_arguments_in_range Real.cos Real.sin 1 1 0 1 2 rfl⟩

/-! ### C6: requested-feature validation and prerequisite resolution -/

theorem subset_expandStep (s : Finset String) (t : String) (a : Finset String) :
    s ⊆ expandStep s t a := by
  unfold expandStep
  split
  · exact Finset.subset_union_left
  · exact subset_rfl

theorem expandStep_subset {s impl : Finset String} (t : String) {a : Finset String}
    (hs : s ⊆ impl) (ha : a ⊆ impl) : expandStep s t a ⊆ impl := by
  unfold expandStep
  split
  · exact Finset.union_subset hs ha
  · exact hs

theorem expandStep_adds {s : Finset String} {t : String} (a : Finset String) (h : t ∈ s) :
    a ⊆ expandStep s t a := by
  unfold expandStep
  rw [if_pos h]
  exact Finset.subset_union_right

/-- The input names all end up in `to_compute`. -/
theorem subset_toCompute (names : List String) : names.toFinset ⊆ toCompute names := by
  unfold toCompute
  exact (((subset_expandStep _ _ _).trans (subset_expandStep _ _ _)).trans
    (subset_expandStep _ _ _)).trans (subset_expandStep _ _ _)

/-- `to_compute` only ever adds implemented names. -/
theorem toCompute_subset (names : List String)
    (h : names.toFinset ⊆ implementedFeatures.toFinset) :
    toCompute names ⊆ implementedFeatures.toFinset := by
  unfold toCompute
  refine expandStep_subset _ (expandStep_subset _ (expandStep_subset _ (expandStep_subset _ h
    (by decide)) (by decide)) (by decide)) (by decide)

/-- Requesting `year_progress` pulls in its prerequisites. -/
theorem toCompute_year (names : List String) (h : "year_progress" ∈ names.toFinset) :
    ({"day_progress", "dayofyear", "is_leap_year"} : Finset String) ⊆ toCompute names := by
  unfold toCompute
  exact ((expandStep_adds _ h).trans (subset_expandStep _ _ _)).trans
    ((subset_expandStep _ _ _).trans (subset_expandStep _ _ _))

/-- Requesting `month_progress` pulls in its prerequisites. -/
theorem toCompute_month (names : List String) (h : "month_progress" ∈ names.toFinset) :
    ({"day_progress", "day", "days_in_month"} : Finset String) ⊆ toCompute names := by
  unfold toCompute
  exact ((expandStep_adds _ (subset_expandStep _ _ _ h)).trans
    (subset_expandStep _ _ _)).trans (subset_expandStep _ _ _)

/-- Requesting `week_progress` pulls in its prerequisites. -/
theorem toCompute_week (names : List String) (h : "week_progress" ∈ names.toFinset) :
    ({"day_progress", "dayofweek"} : Finset String) ⊆ toCompute names := by
  unfold toCompute
  exact (expandStep_adds _ (subset_expandStep _ _ _ (subset_expandStep _ _ _ h))).trans
    (subset_expandStep _ _ _)

/-- Whenever `day_progress` is in `to_compute`, so are `hour` and `minute`. -/
theorem toCompute_day_progress (names : List String) (h : "day_progress" ∈ toCompute names) :
    ({"hour", "minute"} : Finset String) ⊆ toCompute names := by
  revert h
  unfold toCompute
  intro h
  refine expandStep_adds _ ?_
  by_contra hno
  rw [expandStep, if_neg hno] at h
  exact hno h

/-- C6 counterexample to the error kind: requesting the unknown feature name
`"foo"` makes construction fail, but with `ValueError` (utils.py line 101),
not with a `ConfigurationError`. -/
theorem C6_counterexample :
    BasicTemporalFeatures_init ["foo"] = Except.error PyErr.valueError ∧
    BasicTemporalFeatures_init ["foo"] ≠ Except.error PyErr.configurationError := by
  have h : BasicTemporalFeatures_init ["foo"] = Except.error PyErr.valueError := by decide
  exact ⟨h, by rw [h]; intro hc; exact absurd (Except.error.inj hc) (by decide)⟩

set_option maxHeartbeats 1600000 in
/-- C6 (amended): a requested feature name outside the implemented set makes
`BasicTemporalFeatures.__init__` raise `ValueError` (not a
`ConfigurationError`, which does not exist in the code); an entirely
implemented request succeeds, and every requested progress feature has its
prerequisite flags and extraction attributes resolved in the resulting
configuration. -/
theorem C6_feature_validation (req : List String) :
    ((∃ f ∈ req, f ∉ implementedFeatures) →
      BasicTemporalFeatures_init req = Except.error PyErr.valueError) ∧
    ((∀ f ∈ req, f ∈ implementedFeatures) →
      ∃ cfg, BasicTemporalFeatures_init req = Except.ok cfg ∧
        ("year_progress" ∈ req →
          cfg.computeYearProgress = true ∧ cfg.computeDayProgress = true ∧
          "dayofyear" ∈ cfg.attributeToExtract ∧ "is_leap_year" ∈ cfg.attributeToExtract ∧
          "hour" ∈ cfg.attributeToExtract ∧ "minute" ∈ cfg.attributeToExtract) ∧
        ("month_progress" ∈ req →
          cfg.computeMonthProgress = true ∧ cfg.computeDayProgress = true ∧
          "day" ∈ cfg.attributeToExtract ∧ "days_in_month" ∈ cfg.attributeToExtract ∧
          "hour" ∈ cfg.attributeToExtract ∧ "minute" ∈ cfg.attributeToExtract) ∧
        ("week_progress" ∈ req →
          cfg.computeWeekProgress = true ∧ cfg.computeDayProgress = true ∧
          "dayofweek" ∈ cfg.attributeToExtract ∧
          "hour" ∈ cfg.attributeToExtract ∧ "minute" ∈ cfg.attributeToExtract) ∧
        ("day_progress" ∈ req →
          cfg.computeDayProgress = true ∧
          "hour" ∈ cfg.attributeToExtract ∧ "minute" ∈ cfg.attributeToExtract)) := by
  constructor
  · rintro ⟨f, hf, hni⟩
    have hne : req ≠ [] := by
      intro e
      rw [e] at hf
      exact absurd hf (List.not_mem_nil f)
    have hnotsub : ¬ toCompute req ⊆ implementedFeatures.toFinset := by
      intro hsub
      exact hni (List.mem_toFinset.mp
        (hsub (subset_toCompute req (List.mem_toFinset.mpr hf))))
    unfold BasicTemporalFeatures_init
    rw [if_neg hne, if_neg hnotsub]
  · intro hall
    by_cases hreq : req = []
    · subst hreq
      have hsub : toCompute implementedFeatures ⊆ implementedFeatures.toFinset :=
        toCompute_subset implementedFeatures subset_rfl
      refine ⟨initConfig (toCompute implementedFeatures), ?_, ?_, ?_, ?_, ?_⟩
      · unfold BasicTemporalFeatures_init
        rw [if_pos rfl, if_pos hsub]
      all_goals intro hmem; exact absurd hmem (List.not_mem_nil _)
    · have hsub0 : req.toFinset ⊆ implementedFeatures.toFinset := by
        intro f hf
        exact List.mem_toFinset.mpr (hall f (List.mem_toFinset.mp hf))
      have hsub : toCompute req ⊆ implementedFeatures.toFinset := toCompute_subset req hsub0
      have hday : "day_progress" ∈ toCompute req →
          "hour" ∈ toCompute req ∧ "minute" ∈ toCompute req := by
        intro hd
        have h2 := toCompute_day_progress req hd
        exact ⟨h2 (by decide), h2 (by decide)⟩
      refine ⟨initConfig (toCompute req), ?_, ?_, ?_, ?_, ?_⟩
      · unfold BasicTemporalFeatures_init
        rw [if_neg hreq, if_pos hsub]
      · intro hy
        have hy' := List.mem_toFinset.mpr hy
        have hadds := toCompute_year req hy'
        have hdp : "day_progress" ∈ toCompute req := hadds (by decide)
        have hhm := hday hdp
        refine ⟨?_, ?_, ?_, ?_, ?_, ?_⟩ <;>
          simp [initConfig, Finset.mem_inter, subset_toCompute req hy', hadds (show "dayofyear" ∈
            ({"day_progress", "dayofyear", "is_leap_year"} : Finset String) by decide),
            hadds (show "is_leap_year" ∈
            ({"day_progress", "dayofyear", "is_leap_year"} : Finset String) by decide),
            hdp, hhm.1, hhm.2, extractableAttributes]
      · intro hm
        have hm' := List.mem_toFinset.mpr hm
        have hadds := toCompute_month req hm'
        have hdp : "day_progress" ∈ toCompute req := hadds (by decide)
        have hhm := hday hdp
        refine ⟨?_, ?_, ?_, ?_, ?_, ?_⟩ <;>
          simp [initConfig, Finset.mem_inter, subset_toCompute req hm', hadds (show "day" ∈
            ({"day_progress", "day", "days_in_month"} : Finset String) by decide),
            hadds (show "days_in_month" ∈
            ({"day_progress", "day", "days_in_month"} : Finset String) by decide),
            hdp, hhm.1, hhm.2, extractableAttributes]
      · intro hw
        have hw' := List.mem_toFinset.mpr hw
        have hadds := toCompute_week req hw'
        have hdp : "day_progress" ∈ toCompute req := hadds (by decide)
        have hhm := hday hdp
        refine ⟨?_, ?_, ?_, ?_, ?_⟩ <;>
          simp [initConfig, Finset.mem_inter, subset_toCompute req hw', hadds (show "dayofweek" ∈
            ({"day_progress", "dayofweek"} : Finset String) by decide),
            hdp, hhm.1, hhm.2, extractableAttributes]
      · intro hd
        have hdp : "day_progress" ∈ toCompute req :=
          subset_toCompute req (List.mem_toFinset.mpr hd)
        have hhm := hday hdp
        refine ⟨?_, ?_, ?_⟩ <;>
          simp [initConfig, Finset.mem_inter, hdp, hhm.1, hhm.2, extractableAttributes]

/-- Witness for the amended C6: the unknown name `"foo"` is rejected with
`ValueError`, and the request `["year_progress"]` succeeds with its
prerequisites resolved. -/
theorem C6_witness :
    BasicTemporalFeatures_init ["foo"] = Except.error PyErr.valueError ∧
    (∃ cfg, BasicTemporalFeatures_init ["year_progress"] = Except.ok cfg ∧
      ("year_progress" ∈ ["year_progress"] →
        cfg.computeYearProgress = true ∧ cfg.computeDayProgress = true ∧
        "dayofyear" ∈ cfg.attributeToExtract ∧ "is_leap_year" ∈ cfg.attributeToExtract ∧
        "hour" ∈ cfg.attributeToExtract ∧ "minute" ∈ cfg.attributeToExtract) ∧
      ("month_progress" ∈ ["year_progress"] →
        cfg.computeMonthProgress = true ∧ cfg.computeDayProgress = true ∧
        "day" ∈ cfg.attributeToExtract ∧ "days_in_month" ∈ cfg.attributeToExtract ∧
        "hour" ∈ cfg.attributeToExtract ∧ "minute" ∈ cfg.attributeToExtract) ∧
      ("week_progress" ∈ ["year_progress"] →
        cfg.computeWeekProgress = true ∧ cfg.computeDayProgress = true ∧
        "dayofweek" ∈ cfg.attributeToExtract ∧
        "hour" ∈ cfg.attributeToExtract ∧ "minute" ∈ cfg.attributeToExtract) ∧
      ("day_progress" ∈ ["year_progress"] →
        cfg.computeDayProgress = true ∧
        "hour" ∈ cfg.attributeToExtract ∧ "minute" ∈ cfg.attributeToExtract)) :=
  ⟨(C6_feature_validation ["foo"]).1 ⟨"foo", by decide, by decide⟩,
   (C6_feature_validation ["year_progress"]).2 (by decide)⟩

/-! ### C4: the "normal" holiday score -/

/-- C4 counterexample: training data consisting of one `"normal"` day whose
interest value is `0` satisfies the claim's premise, yet the own-label score
of that day is not `1` (the code divides the `"normal"` average `0.0` by
itself, producing NaN in Python; the total `ℚ` division makes it `0` here —
in both semantics it differs from `1`). -/
theorem C4_counterexample :
    holidayScore [("normal", (0 : ℚ))] "normal" ≠ 1 := by
  have hvals : groupVals [("normal", (0 : ℚ))] "normal" = [0] := by decide
  unfold holidayScore groupMean
  rw [hvals]
  norm_num

/-- C4 (amended): after fitting on data whose `"normal"` group has a nonzero
average interest value, the own-label holiday score of every `"normal"` row
is exactly `1` (`mean/mean` cancels). -/
theorem C4_normal_score_exactly_one (rows : List (String × ℚ))
    (hmean : groupMean rows "normal" ≠ 0) :
    ∀ r ∈ rows, r.1 = "normal" → holidayScore rows r.1 = 1 := by
  intro r _ hlab
  rw [hlab]
  unfold holidayScore
  exact div_self hmean

/-- Witness for the amended C4 on a two-row dataset with interest values 2
and 6. -/
theorem C4_witness :
    groupMean [("normal", (2 : ℚ)), ("xmas", 6)] "normal" ≠ 0 ∧
    ∀ r ∈ [("normal", (2 : ℚ)), ("xmas", 6)], r.1 = "normal" →
      holidayScore [("normal", (2 : ℚ)), ("xmas", 6)] r.1 = 1 := by
  have hvals : groupVals [("normal", (2 : ℚ)), ("xmas", 6)] "normal" = [2] := by decide
  have hmean : groupMean [("normal", (2 : ℚ)), ("xmas", 6)] "normal" ≠ 0 := by
    unfold groupMean
    rw [hvals]
    norm_num
  exact ⟨hmean, C4_normal_score_exactly_one _ hmean⟩

/-! ### C3: the days_ref table for a single-holiday span -/

theorem range_split (n d : Nat) (hdn : d < n) :
    List.range n = List.range' 0 d ++ d :: List.range' (d + 1) (n - d - 1) := by
  have h1 := List.range'_append 0 d (n - d - 1 + 1) 1
  have harith : n - d - 1 + 1 + d = n := by omega
  rw [Nat.one_mul, Nat.zero_add, harith] at h1
  rw [List.range_eq_range', ← h1, List.range'_succ]

/-- Folding the scan step over normal-only days with no holiday seen yet
leaves the state unchanged (the `continue` branch,
holidays_extractor.py lines 54-56). -/
theorem foldl_daysRefStep_skip (hols : List (Option String)) :
    ∀ (l : List Nat) (st : ScanState), (∀ i ∈ l, hols.getD i none = none) → st.past = none →
      l.foldl (daysRefStep hols) st = st := by
  intro l
  induction l with
  | nil => intro st _ _; rfl
  | cons a l ih =>
    intro st hl hp
    have hstep : daysRefStep hols st a = st := by
      simp only [daysRefStep, hl a (List.mem_cons_self a l), hp]
    rw [List.foldl_cons, hstep]
    exact ih st (fun i hi => hl i (List.mem_cons_of_mem a hi)) hp

/-- Folding the scan step over normal-only days after a holiday has been seen
only back-fills the previous-holiday pointers
(holidays_extractor.py line 57). -/
theorem foldl_daysRefStep_fill (hols : List (Option String)) (p : Nat × String) (li : Nat) :
    ∀ (l : List Nat) (rows : Nat → DayRow), (∀ i ∈ l, hols.getD i none = none) →
      l.foldl (daysRefStep hols) ⟨rows, some p, li⟩ =
        ⟨fun i => if i ∈ l then { rows i with prev := some p } else rows i, some p, li⟩ := by
  intro l
  induction l with
  | nil =>
    intro rows _
    have hrows : (fun i => if i ∈ ([] : List Nat) then { rows i with prev := some p }
        else rows i) = rows := by
      funext i
      simp
    rw [List.foldl_nil, hrows]
  | cons a l ih =>
    intro rows hl
    have hstep : daysRefStep hols ⟨rows, some p, li⟩ a =
        ⟨setPrevAt rows a (some p), some p, li⟩ := by
      simp only [daysRefStep, hl a (List.mem_cons_self a l)]
    rw [List.foldl_cons, hstep,
      ih (setPrevAt rows a (some p)) (fun i hi => hl i (List.mem_cons_of_mem a hi))]
    congr 1
    funext i
    by_cases hil : i ∈ l
    · have : i ∈ a :: l := List.mem_cons_of_mem a hil
      simp only [hil, if_true, this, setPrevAt]
      split <;> rfl
    · by_cases hia : i = a
      · subst hia
        have : i ∈ i :: l := List.mem_cons_self i l
        simp only [hil, if_false, this, if_true, setPrevAt, if_pos rfl]
      · have : ¬ i ∈ a :: l := by
          intro hc
          rcases List.mem_cons.mp hc with hc | hc
          · exact hia hc
          · exact hil hc
        simp only [hil, if_false, this, setPrevAt, if_neg hia]

/-- C3 counterexample: a three-day span with its only holiday on day 1.
Day 2 (strictly after the holiday) has a next-holiday pointer — the trailing
fill at holidays_extractor.py lines 77-79 sets it to the holiday itself —
whereas the claim says days after the holiday carry no next-holiday pointer. -/
theorem C3_counterexample :
    get_days_ref [none, some "H", none] 2 = ⟨some (1, "H"), some (1, "H")⟩ ∧
    (get_days_ref [none, some "H", none] 2).next ≠ none := by
  constructor
  · decide
  · decide

/-- C3 (amended): over a span whose only holiday is day `d` (with label `h`),
the built table gives every day strictly before `d` no previous-holiday
pointer and next-holiday pointer `(d, h)`; the day `d` itself and every day
strictly after `d` get both pointers equal to `(d, h)` — in particular the
days after the last holiday still carry a (backwards-pointing) next-holiday
pointer, set by the trailing fill. -/
theorem C3_single_holiday_days_ref (hols : List (Option String)) (d : Nat) (h : String)
    (hd : hols.getD d none = some h)
    (huniq : ∀ i, i ≠ d → hols.getD i none = none) :
    ∀ i < hols.length,
      (i < d → get_days_ref hols i = ⟨none, some (d, h)⟩) ∧
      (i = d → get_days_ref hols i = ⟨some (d, h), some (d, h)⟩) ∧
      (d < i → get_days_ref hols i = ⟨some (d, h), some (d, h)⟩) := by
  have hdn : d < hols.length := by
    by_contra hle
    rw [List.getD_eq_default hols none (Nat.le_of_not_lt hle)] at hd
    exact Option.noConfusion hd
  have hsplit := range_split hols.length d hdn
  set rows1 : Nat → DayRow :=
    setPrevAt (fun _ => ⟨none, none⟩) d (some (d, h)) with hrows1
  set rows2 : Nat → DayRow := setNextRange rows1 0 d (some (d, h)) with hrows2
  have hskip : (List.range' 0 d).foldl (daysRefStep hols)
      ⟨fun _ => ⟨none, none⟩, none, 0⟩ = ⟨fun _ => ⟨none, none⟩, none, 0⟩ := by
    refine foldl_daysRefStep_skip hols _ _ (fun i hi => huniq i ?_) rfl
    have := List.mem_range'_1.mp hi
    omega
  have hstep : daysRefStep hols ⟨fun _ => ⟨none, none⟩, none, 0⟩ d =
      ⟨rows2, some (d, h), d⟩ := by
    simp only [daysRefStep, hd, hrows1, hrows2]
  have hfill : (List.range' (d + 1) (hols.length - d - 1)).foldl (daysRefStep hols)
      ⟨rows2, some (d, h), d⟩ =
      ⟨fun i => if i ∈ List.range' (d + 1) (hols.length - d - 1) then
          { rows2 i with prev := some (d, h) } else rows2 i, some (d, h), d⟩ := by
    refine foldl_daysRefStep_fill hols (d, h) d _ rows2 (fun i hi => huniq i ?_)
    have := List.mem_range'_1.mp hi
    omega
  have hfold : (List.range hols.length).foldl (daysRefStep hols)
      ⟨fun _ => ⟨none, none⟩, none, 0⟩ =
      ⟨fun i => if i ∈ List.range' (d + 1) (hols.length - d - 1) then
          { rows2 i with prev := some (d, h) } else rows2 i, some (d, h), d⟩ := by
    rw [hsplit, List.foldl_append, hskip, List.foldl_cons, hstep, hfill]
  intro i hin
  have hget : get_days_ref hols i =
      (if d ≤ i ∧ i < hols.length then
        { (if i ∈ List.range' (d + 1) (hols.length - d - 1) then
            { rows2 i with prev := some (d, h) } else rows2 i) with next := some (d, h) }
       else
        (if i ∈ List.range' (d + 1) (hols.length - d - 1) then
            { rows2 i with prev := some (d, h) } else rows2 i)) := by
    simp only [get_days_ref, hfold]
  refine ⟨fun hlt => ?_, fun heq => ?_, fun hgt => ?_⟩ <;>
    (rw [hget]
     simp only [hrows2, hrows1, setNextRange, setPrevAt, List.mem_range'_1]
     split_ifs <;> first | rfl | (exfalso; omega))

/-- Witness for the amended C3 on the three-day span with the holiday on
day 1. -/
theorem C3_witness :
    ([none, some "H", none] : List (Option String)).getD 1 none = some "H" ∧
    (∀ i < ([none, some "H", none] : List (Option String)).length,
      (i < 1 → get_days_ref [none, some "H", none] i = ⟨none, some (1, "H")⟩) ∧
      (i = 1 → get_days_ref [none, some "H", none] i = ⟨some (1, "H"), some (1, "H")⟩) ∧
      (1 < i → get_days_ref [none, some "H", none] i = ⟨some (1, "H"), some (1, "H")⟩)) :=
  ⟨by decide, C3_single_holiday_days_ref [none, some "H", none] 1 "H" (by decide)
    (fun i hi => by
      match i with
      | 0 => rfl
      | 1 => exact absurd rfl hi
      | 2 => rfl
      | (j + 3) => exact List.getD_eq_default _ _ (by simp))⟩

/-! ### C8: comparison of the two distances -/

/-- With exact trigonometric functions and equal latitudes, the spherical
expression lies in `[-1, 1]`. -/
theorem sphericalCosArg_eq_lat_mem (k lat lonA lonB : ℝ) :
    sphericalCosArg Real.cos Real.sin k lat lonA lat lonB ∈ Set.Icc (-1 : ℝ) 1 := by
  rw [Set.mem_Icc]
  unfold sphericalCosArg
  constructor
  · nlinarith [Real.neg_one_le_cos (|lonA - lonB| * k), Real.cos_le_one (|lonA - lonB| * k),
      Real.sin_sq_add_cos_sq (lat * k), sq_nonneg (Real.cos (lat * k)),
      sq_nonneg (Real.sin (lat * k))]
  · nlinarith [Real.neg_one_le_cos (|lonA - lonB| * k), Real.cos_le_one (|lonA - lonB| * k),
      Real.sin_sq_add_cos_sq (lat * k), sq_nonneg (Real.cos (lat * k)),
      sq_nonneg (Real.sin (lat * k))]

/-- The sum of the absolute values of the components of any rotation of the
vector `(x, 0)` dominates `x`, for `x ≥ 0`. -/
theorem le_rotSumAbs_of_nonneg (rot x : ℝ) (hx : 0 ≤ x) : x ≤ rotSumAbs rot x 0 := by
  unfold rotSumAbs
  simp only [mul_zero, add_zero]
  rw [abs_mul, abs_mul, abs_neg, abs_of_nonneg hx]
  have habs : 1 ≤ |Real.cos rot| + |Real.sin rot| := by
    nlinarith [sq_abs (Real.sin rot), sq_abs (Real.cos rot),
      mul_nonneg (abs_nonneg (Real.cos rot)) (abs_nonneg (Real.sin rot)),
      abs_nonneg (Real.cos rot), abs_nonneg (Real.sin rot), Real.sin_sq_add_cos_sq rot]
  nlinarith [hx, habs]

/-- C8 (amended, positive half): for two distinct points with EQUAL latitudes,
every recognized unit, radius `r ≥ 0` and any rotation angle, the l1 distance
dominates the flying distance. -/
theorem C8_l1_ge_flying_equal_latitudes (latA lonA latB lonB r rot : ℝ) (u : String)
    (hu : parseAngUnit u ≠ AngUnit.unknown) (hr : 0 ≤ r) (hlat : latA = latB)
    (hne : ¬(latA = latB ∧ lonA = lonB)) :
    ∃ dfly dl1, flying_distance_AB latA lonA latB lonB u r = Except.ok dfly ∧
      L1_distance_AB latA lonA latB lonB u r rot = Except.ok dl1 ∧ dfly ≤ dl1 := by
  have hlon : ¬ lonA = lonB := fun he => hne ⟨hlat, he⟩
  have hcore : ∀ k : ℝ,
      r * Real.arccos (clamp1 (sphericalCosArg Real.cos Real.sin k latA lonA latB lonB)) ≤
        rotSumAbs rot
          (r * Real.arccos (sphericalCosArg Real.cos Real.sin k latA lonA latB lonB)) 0 := by
    intro k
    have hmem : sphericalCosArg Real.cos Real.sin k latA lonA latB lonB ∈
        Set.Icc (-1 : ℝ) 1 := by
      rw [hlat]
      exact sphericalCosArg_eq_lat_mem k latB lonA lonB
    rw [Set.mem_Icc] at hmem
    rw [clamp1_eq_self hmem.1 hmem.2]
    exact le_rotSumAbs_of_nonneg rot _ (mul_nonneg hr (Real.arccos_nonneg _))
  cases hp : parseAngUnit u with
  | unknown => exact absurd hp hu
  | rad =>
    refine ⟨_, _, ?_, ?_, hcore (convK AngUnit.rad)⟩
    · simp only [flying_distance_AB, if_neg hne, hp]
    · simp only [L1_distance_AB, if_pos hlat, if_neg hlon, hp]
  | deg =>
    refine ⟨_, _, ?_, ?_, hcore (convK AngUnit.deg)⟩
    · simp only [flying_distance_AB, if_neg hne, hp]
    · simp only [L1_distance_AB, if_pos hlat, if_neg hlon, hp]

/-- Witness for the amended C8 at latitude 0, longitudes 0 and 1, unit
`"rad"`, `r = 1`, rotation 0. -/
theorem C8_witness :
    parseAngUnit "rad" ≠ AngUnit.unknown ∧ (0 : ℝ) ≤ 1 ∧ (0 : ℝ) = 0 ∧
    ¬((0 : ℝ) = 0 ∧ (0 : ℝ) = 1) ∧
    ∃ dfly dl1, flying_distance_AB 0 0 0 1 "rad" 1 = Except.ok dfly ∧
      L1_distance_AB 0 0 0 1 "rad" 1 0 = Except.ok dl1 ∧ dfly ≤ dl1 :=
  ⟨by decide, by norm_num, rfl, by norm_num,
    C8_l1_ge_flying_equal_latitudes 0 0 0 1 1 0 "rad" (by decide) (by norm_num) rfl
      (by norm_num)⟩

theorem two_div_pi_le_one : 2 / Real.pi ≤ 1 := by
  rw [div_le_one Real.pi_pos]
  linarith [Real.pi_gt_three]

theorem neg_two_div_pi_mem : -(2 / Real.pi) ∈ Set.Icc (-1 : ℝ) 1 := by
  rw [Set.mem_Icc]
  constructor
  · linarith [two_div_pi_le_one]
  · have : 0 < 2 / Real.pi := by positivity
    linarith

theorem arccos_neg_half : Real.arccos (-(1 / 2)) = 2 * Real.pi / 3 := by
  have hc : Real.cos (2 * Real.pi / 3) = -(1 / 2) := by
    have he : 2 * Real.pi / 3 = Real.pi - Real.pi / 3 := by ring
    rw [he, Real.cos_pi_sub, Real.cos_pi_div_three]
  rw [← hc]
  exact Real.arccos_cos (by positivity) (by linarith [Real.pi_pos])

theorem arccos_neg_sqrt_two_div_two :
    Real.arccos (-(Real.sqrt 2 / 2)) = 3 * Real.pi / 4 := by
  have hc : Real.cos (3 * Real.pi / 4) = -(Real.sqrt 2 / 2) := by
    have he : 3 * Real.pi / 4 = Real.pi - Real.pi / 4 := by ring
    rw [he, Real.cos_pi_sub, Real.cos_pi_div_four]
  rw [← hc]
  exact Real.arccos_cos (by positivity) (by linarith [Real.pi_pos])

theorem sqrt_two_gt_14 : (1.4 : ℝ) < Real.sqrt 2 := by
  nlinarith [Real.sq_sqrt (by norm_num : (0:ℝ) ≤ 2), Real.sqrt_nonneg 2]

theorem sqrt_two_lt_15 : Real.sqrt 2 < (1.5 : ℝ) := by
  nlinarith [Real.sq_sqrt (by norm_num : (0:ℝ) ≤ 2), Real.sqrt_nonneg 2]

/-- Lower bound for the arccos in the C8 counterexample:
`2π/3 < arccos(-2/π)` because `-2/π < -1/2` (i.e. `π < 4`). -/
theorem arccos_neg_two_div_pi_gt : 2 * Real.pi / 3 < Real.arccos (-(2 / Real.pi)) := by
  have hlt : -(2 / Real.pi) < -(1 / 2) := by
    have : 1 / 2 < 2 / Real.pi := by
      rw [div_lt_div_iff₀ (by norm_num) Real.pi_pos]
      linarith [Real.pi_lt_four]
    linarith
  have h := Real.strictAntiOn_arccos neg_two_div_pi_mem
    (by rw [Set.mem_Icc]; constructor <;> norm_num) hlt
  rw [arccos_neg_half] at h
  exact h

/-- Upper bound for the arccos in the C8 counterexample:
`arccos(-2/π) < 3π/4` because `-√2/2 < -2/π` (i.e. `4 < π·√2`). -/
theorem arccos_neg_two_div_pi_lt : Real.arccos (-(2 / Real.pi)) < 3 * Real.pi / 4 := by
  have hlt : -(Real.sqrt 2 / 2) < -(2 / Real.pi) := by
    have h1 : 2 / Real.pi < Real.sqrt 2 / 2 := by
      rw [div_lt_div_iff₀ Real.pi_pos (by norm_num)]
      nlinarith [Real.pi_gt_three, sqrt_two_gt_14]
    linarith
  have hmem : -(Real.sqrt 2 / 2) ∈ Set.Icc (-1 : ℝ) 1 := by
    rw [Set.mem_Icc]
    constructor
    · nlinarith [sqrt_two_lt_15]
    · nlinarith [Real.sqrt_nonneg 2]
  have h := Real.strictAntiOn_arccos hmem neg_two_div_pi_mem hlt
  rw [arccos_neg_sqrt_two_div_two] at h
  exact h

/-- C8 counterexample: for the antipodal pair `A = (-π/4, 0)`,
`B = (π/4, π)` (unit `"rad"`, `r = 1`) the flying distance is exactly `π`,
while with rotation angle `arccos(4/5)` the l1 distance evaluates to
`(7/5)·arccos(-2/π) - π/10 < 19π/20 < π`: the l1 distance is strictly
SMALLER than the flying distance, refuting `l1 ≥ flying` for distinct
points. -/
theorem C8_counterexample :
    flying_distance_AB (-(Real.pi / 4)) 0 (Real.pi / 4) Real.pi "rad" 1 = Except.ok Real.pi ∧
    L1_distance_AB (-(Real.pi / 4)) 0 (Real.pi / 4) Real.pi "rad" 1 (Real.arccos (4 / 5)) =
      Except.ok (7 / 5 * Real.arccos (-(2 / Real.pi)) - Real.pi / 10) ∧
    7 / 5 * Real.arccos (-(2 / Real.pi)) - Real.pi / 10 < Real.pi := by
  have hp : parseAngUnit "rad" = AngUnit.rad := by decide
  have hlatne : ¬(-(Real.pi / 4) : ℝ) = Real.pi / 4 := by
    intro hc
    nlinarith [Real.pi_pos]
  have hne : ¬((-(Real.pi / 4) : ℝ) = Real.pi / 4 ∧ (0 : ℝ) = Real.pi) :=
    fun hc => hlatne hc.1
  have hX0lo := arccos_neg_two_div_pi_gt
  have hX0hi := arccos_neg_two_div_pi_lt
  have hX0nn : 0 ≤ Real.arccos (-(2 / Real.pi)) := Real.arccos_nonneg _
  refine ⟨?_, ?_, by linarith [Real.pi_pos]⟩
  · simp only [flying_distance_AB, if_neg hne, hp]
    have harg : sphericalCosArg Real.cos Real.sin (convK AngUnit.rad)
        (-(Real.pi / 4)) 0 (Real.pi / 4) Real.pi = -1 := by
      unfold sphericalCosArg convK
      have habs : |(0 : ℝ) - Real.pi| = Real.pi := by
        rw [zero_sub, abs_neg, abs_of_nonneg Real.pi_pos.le]
      rw [mul_one, mul_one, mul_one, habs, Real.cos_neg, Real.sin_neg, Real.cos_pi,
        Real.cos_pi_div_four, Real.sin_pi_div_four]
      nlinarith [Real.mul_self_sqrt (by norm_num : (0:ℝ) ≤ 2)]
    rw [harg, clamp1_eq_self (by norm_num) (by norm_num), Real.arccos_neg_one, one_mul]
  · simp only [L1_distance_AB, if_neg hlatne, hp]
    have hgen : l1GenCosArg Real.cos Real.sin (convK AngUnit.rad)
        (-(Real.pi / 4)) 0 (Real.pi / 4) Real.pi = -(2 / Real.pi) := by
      unfold l1GenCosArg cosLatSqAvg sinLatSqAvg convK
      have e1 : 2 * (Real.pi / 4) * 1 = Real.pi / 2 := by ring
      have e2 : 2 * -(Real.pi / 4) * 1 = -(Real.pi / 2) := by ring
      have e3 : (0 : ℝ) * 1 - Real.pi * 1 = -Real.pi := by ring
      rw [e1, e2, e3, Real.sin_neg, Real.sin_pi_div_two, Real.cos_neg, Real.cos_pi]
      field_simp
      ring
    have hclamp : clamp1 (-(2 / Real.pi)) = -(2 / Real.pi) := by
      have hm := neg_two_div_pi_mem
      rw [Set.mem_Icc] at hm
      exact clamp1_eq_self hm.1 hm.2
    have habs2 : |(-(Real.pi / 4) : ℝ) * convK AngUnit.rad -
        Real.pi / 4 * convK AngUnit.rad| = Real.pi / 2 := by
      unfold convK
      have he : (-(Real.pi / 4) : ℝ) * 1 - Real.pi / 4 * 1 = -(Real.pi / 2) := by ring
      rw [he, abs_neg, abs_of_nonneg (by positivity)]
    rw [hgen, hclamp, habs2, one_mul, one_mul]
    have hcosr : Real.cos (Real.arccos (4 / 5)) = 4 / 5 :=
      Real.cos_arccos (by norm_num) (by norm_num)
    have hsinr : Real.sin (Real.arccos (4 / 5)) = 3 / 5 := by
      rw [Real.sin_arccos]
      rw [show (1 : ℝ) - (4 / 5) ^ 2 = (3 / 5) ^ 2 by norm_num,
        Real.sqrt_sq (by norm_num : (0:ℝ) ≤ 3 / 5)]
    unfold rotSumAbs
    rw [hcosr, hsinr]
    have habs3 : |4 / 5 * Real.arccos (-(2 / Real.pi)) + 3 / 5 * (Real.pi / 2)| =
        4 / 5 * Real.arccos (-(2 / Real.pi)) + 3 / 5 * (Real.pi / 2) :=
      abs_of_nonneg (by linarith [Real.pi_pos])
    have habs4 : |-(3 / 5) * Real.arccos (-(2 / Real.pi)) + 4 / 5 * (Real.pi / 2)| =
        -(-(3 / 5) * Real.arccos (-(2 / Real.pi)) + 4 / 5 * (Real.pi / 2)) :=
      abs_of_neg (by linarith)
    rw [habs3, habs4]
    congr 1
    ring

end NYTF
